import Mathlib

/-!
Verification of the shared-buffer range reducer (`chunk_sum`).

Shallow embedding of `chunk_sum` from
`lecture notes/code/notebooks/01-concurrency/mp_tasks.py`:

```python
def chunk_sum(shm_name, shape, dtype_str, start, end):
    dtype = np.dtype(dtype_str)
    shm = shared_memory.SharedMemory(name=shm_name)
    try:
        arr = np.ndarray(shape, dtype=dtype, buffer=shm.buf)
        return float(np.sum(arr[start:end]))
    finally:
        shm.close()
```

Modelling choices:
* The world of named shared segments is an explicit association list
  from names to segments.  A segment is its stored numeric contents
  (decoded element values) together with its byte length.
  `SharedMemory(name=...)` is a lookup; a missing name is the
  `FileNotFoundError` of the real constructor (`Err.NotFound`).
  `shm.close()` releases the local handle and never unlinks, so the
  environment is returned unchanged.
* `np.dtype(dtype_str)` is a finite parser over the supported numeric
  format descriptors; an unrecognised descriptor is numpy's `TypeError`
  (`Err.InvalidType`).  It runs before the attach, as in the source.
* `np.ndarray(shape, dtype, buffer=shm.buf)` checks
  `prod(shape) * itemsize <= nbytes` and raises
  `TypeError: buffer is too small for requested array` otherwise
  (`Err.SizeMismatch`); this happens inside the `try`, after the attach.
* `arr[start:end]` uses Python slice semantics along the first
  dimension: negative indices count from the end, indices are clamped
  to `[0, shape[0]]`, and a reversed range is empty.  No exception is
  ever raised by the slice.
* `np.sum` accumulates in the array's own kind: floating-point arrays
  sum in their own floating type, integer arrays sum in 64-bit signed
  integers with wraparound on overflow.  Numeric values are modelled
  as exact rationals, so floating-point rounding is not modelled (the
  idealisation is exact real arithmetic); 64-bit integer wraparound,
  which is exact integer arithmetic, is modelled faithfully by
  `wrap64`.
* The result record also carries whether a local handle was acquired
  (`attached`) and whether it was released (`released`), so the
  resource-lifecycle contract is visible in the embedding.
-/

namespace MpTasks

/-- Error kinds of the reducer contract (spec §7).  `OutOfRange` is part
of the taxonomy but, as the theorems below show, the reference code
never produces it. -/
inductive Err where
  | NotFound
  | InvalidType
  | SizeMismatch
  | OutOfRange
  deriving DecidableEq, Repr

/-- Supported fixed-width numeric element formats. -/
inductive Dtype where
  | float32
  | float64
  | int32
  | int64
  deriving DecidableEq, Repr

/-- Byte width of one element of the given format. -/
def Dtype.itemsize : Dtype → ℕ
  | .float32 => 4
  | .float64 => 8
  | .int32 => 4
  | .int64 => 8

/-- Whether the format is an integer format (summed in 64-bit signed
integer arithmetic by `np.sum`). -/
def Dtype.isInt : Dtype → Bool
  | .float32 => false
  | .float64 => false
  | .int32 => true
  | .int64 => true

/-- Parse an element-type descriptor, as `np.dtype(dtype_str)` does,
restricted to the supported numeric formats (canonical names and the
usual short codes).  `none` models the `TypeError` numpy raises on an
unsupported descriptor. -/
def npDtype : String → Option Dtype
  | "float32" => some .float32
  | "f4" => some .float32
  | "<f4" => some .float32
  | "float64" => some .float64
  | "f8" => some .float64
  | "<f8" => some .float64
  | "d" => some .float64
  | "int32" => some .int32
  | "i4" => some .int32
  | "<i4" => some .int32
  | "int64" => some .int64
  | "i8" => some .int64
  | "<i8" => some .int64
  | "l" => some .int64
  | _ => none

/-- A named shared segment: the numeric values its owner wrote into it
(in row-major order) and its byte length. -/
structure Segment where
  data : List ℚ
  nbytes : ℕ
  deriving DecidableEq, Repr

/-- The world of named shared segments: name → segment. -/
abbrev Env : Type := List (String × Segment)

/-- Python slice-endpoint normalisation for a sequence of length `n`:
a negative index counts from the end, and the result is clamped to
`[0, n]`.  Slicing never raises. -/
def pyIdx (n : ℕ) (i : ℤ) : ℕ :=
  if i < 0 then ((n : ℤ) + i).toNat else min i.toNat n

/-- Signed 64-bit wraparound, as performed by numpy's integer
accumulation on overflow. -/
def wrap64 (z : ℤ) : ℤ :=
  (z + 2 ^ 63) % 2 ^ 64 - 2 ^ 63

/-- Sum of the selected elements, as computed by `np.sum`: floating
formats sum the values themselves (exact-rational idealisation of
float arithmetic); integer formats sum the integer values in 64-bit
signed arithmetic with wraparound. -/
def npSum (d : Dtype) (xs : List ℚ) : ℚ :=
  if d.isInt then ((wrap64 (xs.map Rat.num).sum : ℤ) : ℚ) else xs.sum

instance : DecidableEq (Except Err ℚ) := fun x y =>
  match x, y with
  | .ok a, .ok b =>
      if h : a = b then .isTrue (by rw [h]) else .isFalse (by simp [h])
  | .error a, .error b =>
      if h : a = b then .isTrue (by rw [h]) else .isFalse (by simp [h])
  | .ok _, .error _ => .isFalse (by simp)
  | .error _, .ok _ => .isFalse (by simp)

/-- Everything one call to `chunk_sum` did: its return value or error,
whether a local handle to the segment was acquired and whether it was
released, and the world of named segments after the call. -/
structure CallResult where
  result : Except Err ℚ
  attached : Bool
  released : Bool
  envAfter : Env
  deriving DecidableEq, Repr

/-- The elements covered by the slice `arr[start:stop]` of the array
view `arr = np.ndarray(shape, dtype, buffer=shm.buf)`, in row-major
order: the slice selects whole rows along the first dimension, with
Python semantics for the endpoints. -/
def selectedElems (shm : Segment) (shape : List ℕ) (start stop : ℤ) :
    List ℚ :=
  let arr := shm.data.take shape.prod
  let n := shape.headD 0
  let rowSize := shape.tail.prod
  (arr.drop (pyIdx n start * rowSize)).take
    ((pyIdx n stop - pyIdx n start) * rowSize)

/-- The body of the `try` block: overlay the array view (numpy checks
the buffer is large enough for the requested array and raises
otherwise) and sum the slice `[start:stop]` along the first
dimension. -/
def tryBody (shm : Segment) (shape : List ℕ) (d : Dtype) (start stop : ℤ) :
    Except Err ℚ :=
  if shape.prod * d.itemsize > shm.nbytes then
    .error .SizeMismatch
  else
    .ok (npSum d (selectedElems shm shape start stop))

/-- Model of `chunk_sum(shm_name, shape, dtype_str, start, end)`: parse
the dtype, attach to the named segment, overlay the array view, sum
the slice, and always release the local handle (`try`/`finally`); the
release never unlinks the segment, so `envAfter` is the unchanged
environment. -/
def chunk_sum (env : Env) (shm_name : String) (shape : List ℕ)
    (dtype_str : String) (start stop : ℤ) : CallResult :=
  match npDtype dtype_str with
  | none => ⟨.error .InvalidType, false, false, env⟩
  | some d =>
    match List.lookup shm_name env with
    | none => ⟨.error .NotFound, false, false, env⟩
    | some shm => ⟨tryBody shm shape d start stop, true, true, env⟩

/-- The spec's concrete example segment: the 64-bit float array
`[1.0, 2.0, 3.0, 4.0]`, 32 bytes. -/
def exSeg : Segment := ⟨[1, 2, 3, 4], 32⟩

/-- An environment holding the example segment under the name "seg". -/
def exEnv : Env := [("seg", exSeg)]

/-- An int64 segment holding `[2^63 - 1, 1]`, 16 bytes. -/
def intSeg : Segment := ⟨[9223372036854775807, 1], 16⟩

/-- An environment holding the int64 segment under the name "iseg". -/
def intEnv : Env := [("iseg", intSeg)]

lemma npSum_nil (d : Dtype) : npSum d [] = 0 := by
  cases d <;> decide

lemma wrap64_eq_self {z : ℤ} (h1 : -(2 ^ 63) ≤ z) (h2 : z < 2 ^ 63) :
    wrap64 z = z := by
  have h63 : (2 : ℤ) ^ 63 = 9223372036854775808 := by norm_num
  have h64 : (2 : ℤ) ^ 64 = 18446744073709551616 := by norm_num
  rw [h63] at h1 h2
  unfold wrap64
  rw [h63, h64, Int.emod_eq_of_lt (by omega) (by omega)]
  omega

lemma sum_map_num {xs : List ℚ} (h : ∀ q ∈ xs, q.den = 1) :
    (((xs.map Rat.num).sum : ℤ) : ℚ) = xs.sum := by
  induction xs with
  | nil => simp
  | cons a t ih =>
    have ha : ((a.num : ℤ) : ℚ) = a := by
      have := h a (List.mem_cons_self a t)
      rw [← Rat.num_div_den a, this]
      simp
    simp only [List.map_cons, List.sum_cons, Int.cast_add]
    rw [ih (fun q hq => h q (List.mem_cons_of_mem _ hq)), ha]

lemma pyIdx_natCast (n k : ℕ) : pyIdx n (k : ℤ) = min k n := by
  simp [pyIdx]

lemma selectedElems_of_le (shm : Segment) (shape : List ℕ) {start stop : ℤ}
    (h : pyIdx (shape.headD 0) stop ≤ pyIdx (shape.headD 0) start) :
    selectedElems shm shape start stop = [] := by
  simp only [selectedElems]
  rw [Nat.sub_eq_zero_of_le h]
  simp

lemma selectedElems_split (shm : Segment) (n : ℕ) (rest : List ℕ) (k : ℕ)
    (hk : k ≤ n) :
    selectedElems shm (n :: rest) 0 (k : ℤ) ++
      selectedElems shm (n :: rest) (k : ℤ) (n : ℤ)
      = selectedElems shm (n :: rest) 0 (n : ℤ) := by
  simp only [selectedElems, List.headD_cons, List.tail_cons]
  have h0 : pyIdx n (0 : ℤ) = 0 := by simp [pyIdx]
  rw [h0, pyIdx_natCast, pyIdx_natCast, Nat.min_eq_left hk,
    Nat.min_eq_left (le_refl n)]
  simp only [Nat.zero_mul, List.drop_zero, Nat.sub_zero]
  have hsum : n * (rest.prod) = k * rest.prod + (n - k) * rest.prod := by
    rw [← Nat.add_mul, Nat.add_sub_cancel' hk]
  rw [hsum, List.take_add]

lemma chunk_sum_ok (env : Env) (shm_name : String) (shape : List ℕ)
    (dtype_str : String) (start stop : ℤ) (d : Dtype) (shm : Segment)
    (hd : npDtype dtype_str = some d)
    (hl : List.lookup shm_name env = some shm)
    (hs : shape.prod * d.itemsize ≤ shm.nbytes) :
    (chunk_sum env shm_name shape dtype_str start stop).result
      = .ok (npSum d (selectedElems shm shape start stop)) := by
  simp only [chunk_sum, hd, hl, tryBody]
  rw [if_neg (by omega)]

lemma chunk_sum_envAfter (env : Env) (shm_name : String) (shape : List ℕ)
    (dtype_str : String) (start stop : ℤ) :
    (chunk_sum env shm_name shape dtype_str start stop).envAfter = env := by
  unfold chunk_sum
  cases npDtype dtype_str with
  | none => rfl
  | some d =>
    cases List.lookup shm_name env with
    | none => rfl
    | some shm => rfl

/-- C1: whenever a call to `chunk_sum` acquires a local handle to the
named segment, the handle is released before the call returns or
propagates an error, the release does not destroy or unlink the
underlying named segment (the environment of named segments is
unchanged), and a subsequent independent call still attaches to the
same segment name. -/
theorem chunk_sum_releases_local_handle (env : Env) (shm_name : String)
    (shape : List ℕ) (dtype_str : String) (start stop : ℤ)
    (h : (chunk_sum env shm_name shape dtype_str start stop).attached = true) :
    (chunk_sum env shm_name shape dtype_str start stop).released = true ∧
    (chunk_sum env shm_name shape dtype_str start stop).envAfter = env ∧
    (chunk_sum (chunk_sum env shm_name shape dtype_str start stop).envAfter
        shm_name shape dtype_str start stop).attached = true := by
  cases hd : npDtype dtype_str with
  | none => exact absurd h (by simp [chunk_sum, hd])
  | some d =>
    cases hl : List.lookup shm_name env with
    | none => exact absurd h (by simp [chunk_sum, hd, hl])
    | some shm => simp [chunk_sum, hd, hl]

theorem chunk_sum_releases_local_handle_witness :
    (chunk_sum exEnv "seg" [4] "float64" 1 3).released = true ∧
    (chunk_sum exEnv "seg" [4] "float64" 1 3).envAfter = exEnv ∧
    (chunk_sum (chunk_sum exEnv "seg" [4] "float64" 1 3).envAfter
        "seg" [4] "float64" 1 3).attached = true :=
  chunk_sum_releases_local_handle exEnv "seg" [4] "float64" 1 3 (by decide)

/-- C2: on a segment holding the 64-bit float array `[1.0, 2.0, 3.0,
4.0]` with shape `(4,)`, `chunk_sum` with `start = 1` and `end = 3`
returns `5.0`. -/
theorem chunk_sum_concrete_float64_example :
    (chunk_sum exEnv "seg" [4] "float64" 1 3).result = .ok 5 := by
  rw [chunk_sum_ok exEnv "seg" [4] "float64" 1 3 .float64 exSeg rfl rfl
    (by decide)]
  rw [show selectedElems exSeg [4] 1 3 = [2, 3] from rfl]
  norm_num [npSum, Dtype.isInt]

/-- C3 counterexample: with `start = 5, end = 2` on the existing
4-element float64 segment, `chunk_sum` does not fail with an
`OutOfRange` error; Python slice semantics clamp the endpoints, the
slice is empty, and the call returns the value `0.0`. -/
theorem chunk_sum_reversed_range_no_error :
    (chunk_sum exEnv "seg" [4] "float64" 5 2).result = .ok 0 ∧
    (chunk_sum exEnv "seg" [4] "float64" 5 2).result ≠
      .error .OutOfRange := by
  decide

/-- C3 amended: `chunk_sum` performs no validation of `start`/`end`.
The slice endpoints are normalised with Python slice semantics, so
whenever the normalised stop index does not exceed the normalised
start index (as with `start = 5, end = 2`), the call on an existing
segment with a valid dtype and an adequate buffer returns `0.0`
instead of an `OutOfRange` error. -/
theorem chunk_sum_clamped_empty_range_returns_zero (env : Env)
    (shm_name : String) (shape : List ℕ) (dtype_str : String)
    (start stop : ℤ) (d : Dtype) (shm : Segment)
    (hd : npDtype dtype_str = some d)
    (hl : List.lookup shm_name env = some shm)
    (hs : shape.prod * d.itemsize ≤ shm.nbytes)
    (hr : pyIdx (shape.headD 0) stop ≤ pyIdx (shape.headD 0) start) :
    (chunk_sum env shm_name shape dtype_str start stop).result = .ok 0 := by
  rw [chunk_sum_ok env shm_name shape dtype_str start stop d shm hd hl hs,
    selectedElems_of_le shm shape hr, npSum_nil]

theorem chunk_sum_clamped_empty_range_returns_zero_witness :
    (chunk_sum exEnv "seg" [4] "float64" 5 2).result = .ok 0 :=
  chunk_sum_clamped_empty_range_returns_zero exEnv "seg" [4] "float64" 5 2
    .float64 exSeg (by decide) (by decide) (by decide) (by decide)

/-- C6: on an existing segment with a valid dtype and an adequate
buffer, a call with `start == end` returns exactly `0.0` (the
empty-range sum). -/
theorem chunk_sum_empty_range_zero (env : Env) (shm_name : String)
    (shape : List ℕ) (dtype_str : String) (i : ℤ) (d : Dtype)
    (shm : Segment)
    (hd : npDtype dtype_str = some d)
    (hl : List.lookup shm_name env = some shm)
    (hs : shape.prod * d.itemsize ≤ shm.nbytes) :
    (chunk_sum env shm_name shape dtype_str i i).result = .ok 0 := by
  rw [chunk_sum_ok env shm_name shape dtype_str i i d shm hd hl hs,
    selectedElems_of_le shm shape (le_refl _), npSum_nil]

theorem chunk_sum_empty_range_zero_witness :
    (chunk_sum exEnv "seg" [4] "float64" 2 2).result = .ok 0 :=
  chunk_sum_empty_range_zero exEnv "seg" [4] "float64" 2 .float64 exSeg
    (by decide) (by decide) (by decide)

/-- C7: when the segment name does not refer to an existing named
shared segment (and the dtype descriptor itself is valid, so execution
reaches the attach), `chunk_sum` fails with a `NotFound` error,
produces no value, and never acquires a handle. -/
theorem chunk_sum_missing_segment_not_found (env : Env)
    (shm_name : String) (shape : List ℕ) (dtype_str : String)
    (start stop : ℤ) (d : Dtype)
    (hd : npDtype dtype_str = some d)
    (hl : List.lookup shm_name env = none) :
    (chunk_sum env shm_name shape dtype_str start stop).result
      = .error .NotFound ∧
    (chunk_sum env shm_name shape dtype_str start stop).attached = false := by
  simp [chunk_sum, hd, hl]

theorem chunk_sum_missing_segment_not_found_witness :
    (chunk_sum exEnv "nope" [4] "float64" 0 4).result
      = .error .NotFound ∧
    (chunk_sum exEnv "nope" [4] "float64" 0 4).attached = false :=
  chunk_sum_missing_segment_not_found exEnv "nope" [4] "float64" 0 4
    .float64 (by decide) (by decide)

/-- C8: when the product of the shape dimensions times the element byte
width exceeds the segment's byte length, the overlay fails with the
size-mismatch error (numpy's buffer-too-small check) instead of
reading outside the segment, and the handle is still released. -/
theorem chunk_sum_size_mismatch (env : Env) (shm_name : String)
    (shape : List ℕ) (dtype_str : String) (start stop : ℤ) (d : Dtype)
    (shm : Segment)
    (hd : npDtype dtype_str = some d)
    (hl : List.lookup shm_name env = some shm)
    (hs : shape.prod * d.itemsize > shm.nbytes) :
    (chunk_sum env shm_name shape dtype_str start stop).result
      = .error .SizeMismatch ∧
    (chunk_sum env shm_name shape dtype_str start stop).released = true := by
  refine ⟨?_, by simp [chunk_sum, hd, hl]⟩
  simp only [chunk_sum, hd, hl, tryBody]
  rw [if_pos hs]

theorem chunk_sum_size_mismatch_witness :
    (chunk_sum exEnv "seg" [5] "float64" 0 5).result
      = .error .SizeMismatch ∧
    (chunk_sum exEnv "seg" [5] "float64" 0 5).released = true :=
  chunk_sum_size_mismatch exEnv "seg" [5] "float64" 0 5 .float64 exSeg
    (by decide) (by decide) (by decide)

/-- C9: the reducer is read-only and deterministic: a call leaves the
environment of named segments unchanged, and invoking it a second time
with identical arguments on the resulting environment yields the
identical outcome (same result and same lifecycle record). -/
theorem chunk_sum_idempotent_and_read_only (env : Env)
    (shm_name : String) (shape : List ℕ) (dtype_str : String)
    (start stop : ℤ) :
    (chunk_sum env shm_name shape dtype_str start stop).envAfter = env ∧
    chunk_sum (chunk_sum env shm_name shape dtype_str start stop).envAfter
        shm_name shape dtype_str start stop
      = chunk_sum env shm_name shape dtype_str start stop :=
  ⟨chunk_sum_envAfter env shm_name shape dtype_str start stop,
    by rw [chunk_sum_envAfter]⟩

/-- C10: an element-type descriptor that does not name a supported
numeric format makes `chunk_sum` fail with the invalid-type error
before the attach: no handle is acquired, none is released, and the
environment of named segments is untouched. -/
theorem chunk_sum_invalid_dtype_before_attach (env : Env)
    (shm_name : String) (shape : List ℕ) (dtype_str : String)
    (start stop : ℤ)
    (hd : npDtype dtype_str = none) :
    (chunk_sum env shm_name shape dtype_str start stop).result
      = .error .InvalidType ∧
    (chunk_sum env shm_name shape dtype_str start stop).attached = false ∧
    (chunk_sum env shm_name shape dtype_str start stop).released = false ∧
    (chunk_sum env shm_name shape dtype_str start stop).envAfter = env := by
  simp [chunk_sum, hd]

theorem chunk_sum_invalid_dtype_before_attach_witness :
    (chunk_sum exEnv "seg" [4] "float99" 1 3).result
      = .error .InvalidType ∧
    (chunk_sum exEnv "seg" [4] "float99" 1 3).attached = false ∧
    (chunk_sum exEnv "seg" [4] "float99" 1 3).released = false ∧
    (chunk_sum exEnv "seg" [4] "float99" 1 3).envAfter = exEnv :=
  chunk_sum_invalid_dtype_before_attach exEnv "seg" [4] "float99" 1 3
    (by decide)

lemma npSum_eq_sum (d : Dtype) (xs : List ℚ)
    (h : d.isInt = true →
      (∀ q ∈ xs, q.den = 1) ∧
      -(2 ^ 63) ≤ (xs.map Rat.num).sum ∧ (xs.map Rat.num).sum < 2 ^ 63) :
    npSum d xs = xs.sum := by
  unfold npSum
  cases hI : d.isInt with
  | false => simp
  | true =>
    obtain ⟨hden, hlo, hhi⟩ := h hI
    rw [if_pos rfl, wrap64_eq_self hlo hhi, sum_map_num hden]

/-- C4 counterexample: on an int64 segment holding `[2^63 - 1, 1]`,
summing the whole range accumulates in 64-bit signed integer
arithmetic and wraps around to `-2^63`, whereas the sum computed in
double precision would be `2^63` (both `2^63 - 1 + 1 = 2^63` and
`-2^63` are exactly representable doubles): the elements are not
promoted to double before summation. -/
theorem chunk_sum_int64_no_double_promotion :
    (chunk_sum intEnv "iseg" [2] "int64" 0 2).result
      = .ok (-9223372036854775808) ∧
    (9223372036854775807 : ℚ) + 1 = 9223372036854775808 ∧
    (-9223372036854775808 : ℚ) ≠ 9223372036854775808 :=
  ⟨by decide, by norm_num, by norm_num⟩

/-- C4 amended: the sum is accumulated in the element type's own kind,
not unconditionally in double precision: floating formats sum their
values, while integer formats accumulate in signed 64-bit integer
arithmetic with wraparound.  Consequently the result equals the exact
sum of the selected elements whenever the element type is a floating
one, or an integer one whose element values are integers and whose
selected-range sum lies within the signed 64-bit range. -/
theorem chunk_sum_exact_sum_when_no_overflow (env : Env)
    (shm_name : String) (shape : List ℕ) (dtype_str : String)
    (start stop : ℤ) (d : Dtype) (shm : Segment)
    (hd : npDtype dtype_str = some d)
    (hl : List.lookup shm_name env = some shm)
    (hs : shape.prod * d.itemsize ≤ shm.nbytes)
    (hint : d.isInt = true →
      (∀ q ∈ selectedElems shm shape start stop, q.den = 1) ∧
      -(2 ^ 63) ≤ ((selectedElems shm shape start stop).map Rat.num).sum ∧
      ((selectedElems shm shape start stop).map Rat.num).sum < 2 ^ 63) :
    (chunk_sum env shm_name shape dtype_str start stop).result
      = .ok ((selectedElems shm shape start stop).sum) := by
  rw [chunk_sum_ok env shm_name shape dtype_str start stop d shm hd hl hs,
    npSum_eq_sum d _ hint]

theorem chunk_sum_exact_sum_when_no_overflow_witness :
    (chunk_sum intEnv "iseg" [2] "int64" 0 1).result
      = .ok ((selectedElems intSeg [2] 0 1).sum) :=
  chunk_sum_exact_sum_when_no_overflow intEnv "iseg" [2] "int64" 0 1
    .int64 intSeg (by decide) (by decide) (by decide) (by decide)

/-- C5 counterexample: on an int64 segment holding `[2^63 - 1, 1]`
with first-dimension extent `n = 2` and split point `k = 1`, the sum
over `[0, 1)` is `2^63 - 1` and the sum over `[1, 2)` is `1`, but the
sum over `[0, 2)` wraps around to `-2^63`, so range-splitting
additivity fails. -/
theorem chunk_sum_additivity_fails_int64 :
    (chunk_sum intEnv "iseg" [2] "int64" 0 1).result
      = .ok 9223372036854775807 ∧
    (chunk_sum intEnv "iseg" [2] "int64" 1 2).result = .ok 1 ∧
    (chunk_sum intEnv "iseg" [2] "int64" 0 2).result
      = .ok (-9223372036854775808) ∧
    (9223372036854775807 : ℚ) + 1 ≠ -9223372036854775808 :=
  ⟨by decide, by decide, by decide, by norm_num⟩

/-- C5 amended: range-splitting additivity holds for every valid input
whose element type is a floating one, and for integer element types
whenever the three 64-bit accumulations do not overflow (the two
partial range sums and the total each lie within the signed 64-bit
range). -/
theorem chunk_sum_range_splitting_additivity (env : Env)
    (shm_name : String) (n : ℕ) (rest : List ℕ) (dtype_str : String)
    (k : ℕ) (d : Dtype) (shm : Segment)
    (hd : npDtype dtype_str = some d)
    (hl : List.lookup shm_name env = some shm)
    (hs : (n :: rest).prod * d.itemsize ≤ shm.nbytes)
    (hk : k ≤ n)
    (hint : d.isInt = true →
      (∀ q ∈ selectedElems shm (n :: rest) 0 (n : ℤ), q.den = 1) ∧
      (-(2 ^ 63) ≤
          ((selectedElems shm (n :: rest) 0 (k : ℤ)).map Rat.num).sum ∧
        ((selectedElems shm (n :: rest) 0 (k : ℤ)).map Rat.num).sum
          < 2 ^ 63) ∧
      (-(2 ^ 63) ≤
          ((selectedElems shm (n :: rest) (k : ℤ) (n : ℤ)).map
            Rat.num).sum ∧
        ((selectedElems shm (n :: rest) (k : ℤ) (n : ℤ)).map
          Rat.num).sum < 2 ^ 63) ∧
      (-(2 ^ 63) ≤
          ((selectedElems shm (n :: rest) 0 (n : ℤ)).map Rat.num).sum ∧
        ((selectedElems shm (n :: rest) 0 (n : ℤ)).map Rat.num).sum
          < 2 ^ 63)) :
    ∃ a b c : ℚ,
      (chunk_sum env shm_name (n :: rest) dtype_str 0 (k : ℤ)).result
        = .ok a ∧
      (chunk_sum env shm_name (n :: rest) dtype_str (k : ℤ)
        (n : ℤ)).result = .ok b ∧
      (chunk_sum env shm_name (n :: rest) dtype_str 0 (n : ℤ)).result
        = .ok c ∧
      a + b = c := by
  have hsplit := selectedElems_split shm n rest k hk
  refine ⟨npSum d (selectedElems shm (n :: rest) 0 (k : ℤ)),
    npSum d (selectedElems shm (n :: rest) (k : ℤ) (n : ℤ)),
    npSum d (selectedElems shm (n :: rest) 0 (n : ℤ)),
    chunk_sum_ok env shm_name _ dtype_str _ _ d shm hd hl hs,
    chunk_sum_ok env shm_name _ dtype_str _ _ d shm hd hl hs,
    chunk_sum_ok env shm_name _ dtype_str _ _ d shm hd hl hs, ?_⟩
  cases hI : d.isInt with
  | false =>
    rw [npSum_eq_sum d _ (by simp [hI]), npSum_eq_sum d _ (by simp [hI]),
      npSum_eq_sum d _ (by simp [hI]), ← hsplit, List.sum_append]
  | true =>
    obtain ⟨hden, ⟨hA1, hA2⟩, ⟨hB1, hB2⟩, ⟨hC1, hC2⟩⟩ := hint hI
    have hden1 : ∀ q ∈ selectedElems shm (n :: rest) 0 (k : ℤ),
        q.den = 1 :=
      fun q hq => hden q (hsplit ▸ List.mem_append_left _ hq)
    have hden2 : ∀ q ∈ selectedElems shm (n :: rest) (k : ℤ) (n : ℤ),
        q.den = 1 :=
      fun q hq => hden q (hsplit ▸ List.mem_append_right _ hq)
    rw [npSum_eq_sum d _ (fun _ => ⟨hden1, hA1, hA2⟩),
      npSum_eq_sum d _ (fun _ => ⟨hden2, hB1, hB2⟩),
      npSum_eq_sum d _ (fun _ => ⟨hden, hC1, hC2⟩),
      ← hsplit, List.sum_append]

theorem chunk_sum_range_splitting_additivity_witness :
    ∃ a b c : ℚ,
      (chunk_sum exEnv "seg" [4] "float64" 0 ((2 : ℕ) : ℤ)).result
        = .ok a ∧
      (chunk_sum exEnv "seg" [4] "float64" ((2 : ℕ) : ℤ)
        ((4 : ℕ) : ℤ)).result = .ok b ∧
      (chunk_sum exEnv "seg" [4] "float64" 0 ((4 : ℕ) : ℤ)).result
        = .ok c ∧
      a + b = c :=
  chunk_sum_range_splitting_additivity exEnv "seg" 4 [] "float64" 2
    .float64 exSeg (by decide) (by decide) (by decide) (by decide)
    (by decide)

end MpTasks
